import Mathlib

/-!
Verification development for the temperature-monitor backend.

The Python sources are shallowly embedded: Python dicts become association
lists, Python sets become duplicate-free lists maintained by `setAdd`,
machine floats become rationals, timestamps become natural or integer
numbers of time units, and fallible code returns `Except`.  Each definition
carries a comment naming the source function it embeds.
-/

/-- Lookup in a Python dict modelled as an association list: first binding
of the key, if any (`d[k]` / `d.get(k)`). -/
def dictGet? {κ α : Type} [DecidableEq κ] (d : List (κ × α)) (k : κ) : Option α :=
  match d with
  | [] => none
  | (k₀, v₀) :: rest => if k = k₀ then some v₀ else dictGet? rest k

/-- Update in a Python dict modelled as an association list: replace the
first binding of the key, or append a fresh binding (`d[k] = v`). -/
def dictSet {κ α : Type} [DecidableEq κ] (d : List (κ × α)) (k : κ) (v : α) :
    List (κ × α) :=
  match d with
  | [] => [(k, v)]
  | (k₀, v₀) :: rest =>
      if k = k₀ then (k₀, v) :: rest else (k₀, v₀) :: dictSet rest k v

/-- Deletion from a Python dict modelled as an association list
(`del d[k]`). -/
def dictErase {κ α : Type} [DecidableEq κ] (d : List (κ × α)) (k : κ) :
    List (κ × α) :=
  match d with
  | [] => []
  | (k₀, v₀) :: rest => if k = k₀ then rest else (k₀, v₀) :: dictErase rest k

/-- Insertion into a Python set modelled as a duplicate-free list
(`s.add(x)`). -/
def setAdd {α : Type} [DecidableEq α] (s : List α) (x : α) : List α :=
  if x ∈ s then s else s ++ [x]

theorem dictGet?_dictSet_self {κ α : Type} [DecidableEq κ]
    (d : List (κ × α)) (k : κ) (v : α) : dictGet? (dictSet d k v) k = some v := by
  induction d with
  | nil => simp [dictGet?, dictSet]
  | cons hd tl ih =>
      obtain ⟨k₀, v₀⟩ := hd
      by_cases h : k = k₀ <;> simp [dictGet?, dictSet, h, ih]

theorem dictGet?_dictSet_ne {κ α : Type} [DecidableEq κ]
    (d : List (κ × α)) (k k' : κ) (v : α) (h : k' ≠ k) :
    dictGet? (dictSet d k v) k' = dictGet? d k' := by
  induction d with
  | nil => simp [dictGet?, dictSet, h]
  | cons hd tl ih =>
      obtain ⟨k₀, v₀⟩ := hd
      by_cases hk : k = k₀
      · subst hk; simp [dictGet?, dictSet, h]
      · by_cases hk' : k' = k₀ <;> simp [dictGet?, dictSet, hk, hk', ih]

theorem mem_setAdd {α : Type} [DecidableEq α] (s : List α) (x y : α) :
    y ∈ setAdd s x ↔ y ∈ s ∨ y = x := by
  unfold setAdd
  by_cases h : x ∈ s
  · simp only [if_pos h]
    constructor
    · exact fun hy => Or.inl hy
    · rintro (hy | rfl) <;> [exact hy; exact h]
  · simp [if_neg h]

/-! ## Token storage (`services/token_storage.py`)

Token strings are modelled by an arbitrary type `τ` with decidable
equality.  `active_refresh_tokens` is the defaultdict from usernames to
sets of refresh-token strings; presence of a key in the association list
models presence of the key in the Python dict. -/

structure TokenStorage (τ : Type) where
  active_refresh_tokens : List (String × List τ)
  blacklisted_tokens : List τ
deriving DecidableEq

/-- Embeds `TokenStorage.add_refresh_token`: the defaultdict materializes
the per-user set and the token is added to it. -/
def add_refresh_token {τ : Type} [DecidableEq τ] (st : TokenStorage τ)
    (username : String) (refreshToken : τ) : TokenStorage τ :=
  let s := (dictGet? st.active_refresh_tokens username).getD []
  let act := dictSet st.active_refresh_tokens username (setAdd s refreshToken)
  { st with active_refresh_tokens := act }

/-- Embeds `TokenStorage.is_refresh_token_active`:
`refresh_token in self.active_refresh_tokens.get(username, set())`. -/
def is_refresh_token_active {τ : Type} [DecidableEq τ] (st : TokenStorage τ)
    (username : String) (refreshToken : τ) : Bool :=
  refreshToken ∈ (dictGet? st.active_refresh_tokens username).getD []

/-- Embeds `TokenStorage.revoke_refresh_token`.  In the source,
`removed = self.active_refresh_tokens[username].discard(refresh_token)`
binds the return value of `set.discard`, which is always `None` and hence
always falsy; the subsequent membership re-check
`refresh_token in self.active_refresh_tokens.get(username, set())` runs
after the discard has already removed the token. -/
def revoke_refresh_token {τ : Type} [DecidableEq τ] (st : TokenStorage τ)
    (username : String) (refreshToken : τ) : TokenStorage τ × Bool :=
  match dictGet? st.active_refresh_tokens username with
  | some s =>
      let s₂ := s.erase refreshToken
      let removed := false
      let act := dictSet st.active_refresh_tokens username s₂
      let st₂ : TokenStorage τ := { st with active_refresh_tokens := act }
      if removed = true ∨ refreshToken ∈ s₂ then
        let bl := setAdd st₂.blacklisted_tokens refreshToken
        ({ st₂ with blacklisted_tokens := bl }, true)
      else (st₂, false)
  | none => (st, false)

/-- Embeds `TokenStorage.revoke_all_user_tokens`. -/
def revoke_all_user_tokens {τ : Type} [DecidableEq τ] (st : TokenStorage τ)
    (username : String) : TokenStorage τ × Nat :=
  match dictGet? st.active_refresh_tokens username with
  | some tokens =>
      let act := dictErase st.active_refresh_tokens username
      let bl := tokens.foldl setAdd st.blacklisted_tokens
      ({ active_refresh_tokens := act, blacklisted_tokens := bl }, tokens.length)
  | none => (st, 0)

/-- Embeds `TokenStorage.blacklist_token`. -/
def blacklist_token {τ : Type} [DecidableEq τ] (st : TokenStorage τ)
    (token : τ) : TokenStorage τ :=
  { st with blacklisted_tokens := setAdd st.blacklisted_tokens token }

/-- Embeds `TokenStorage.is_token_blacklisted`. -/
def is_token_blacklisted {τ : Type} [DecidableEq τ] (st : TokenStorage τ)
    (token : τ) : Bool :=
  token ∈ st.blacklisted_tokens

/-! ## JWT tokens (`services/jwt_service.py`)

`jwt.encode` is deterministic: the token string is a function of the
payload, and the payload is `{username, type, iat, exp}` with `iat` the
current time (second granularity) and `exp` equal to `iat` plus the
configured TTL for the token type.  A token string is therefore modelled
either as `signed c` for the encoding of claims `c`, or as `junk s` for a
string that is not a valid signature under the server secret.  Two
`generate_*` calls with the same username in the same second yield the
same string. -/

inductive TokenKind where
  | access : TokenKind
  | refresh : TokenKind
deriving DecidableEq

structure TokenClaims where
  username : String
  kind : TokenKind
  iat : Nat
deriving DecidableEq

inductive TokenStr where
  | junk (s : String) : TokenStr
  | signed (c : TokenClaims) : TokenStr
deriving DecidableEq

structure JwtConfig where
  JWT_ACCESS_TOKEN_EXPIRES_IN : Nat
  JWT_REFRESH_TOKEN_EXPIRES_IN : Nat

/-- Expiry claim of a token: `iat + TTL` for its kind. -/
def tokenExp (cfg : JwtConfig) (c : TokenClaims) : Nat :=
  c.iat + (match c.kind with
    | .access => cfg.JWT_ACCESS_TOKEN_EXPIRES_IN
    | .refresh => cfg.JWT_REFRESH_TOKEN_EXPIRES_IN)

/-- Embeds `JWTService.generate_access_token` at current time `now`. -/
def generate_access_token (now : Nat) (username : String) : TokenStr :=
  .signed { username := username, kind := .access, iat := now }

/-- Embeds `JWTService.generate_refresh_token` at current time `now`. -/
def generate_refresh_token (now : Nat) (username : String) : TokenStr :=
  .signed { username := username, kind := .refresh, iat := now }

/-- Embeds `JWTService.verify_token`: signature check (junk strings fail)
and expiry check (pyjwt raises `ExpiredSignatureError` iff `exp < now`). -/
def verify_token (cfg : JwtConfig) (now : Nat) : TokenStr → Option TokenClaims
  | .junk _ => none
  | .signed c => if tokenExp cfg c < now then none else some c

/-- Error taxonomy from `exceptions.py` (and `RateLimitError` as raised by
the auth routes, carrying a retry-after value). -/
inductive ApiError where
  | validationError (msg : String) (field : Option String) : ApiError
  | notFoundError (resource identifier : String) : ApiError
  | authenticationError (msg : String) : ApiError
  | rateLimitError (msg : String) (retryAfter : Int) : ApiError
deriving DecidableEq

/-- Embeds the `require_refresh_token` gate (`utils/auth_middleware.py`)
composed with the `/api/refresh-token` handler (`routes/auth.py`): check
header presence, blacklist, signature/expiry, token kind and per-user
activeness, then issue a new access+refresh pair, revoke the old refresh
token and activate the new one.  Returns the updated storage and the new
pair. -/
def refresh_endpoint (cfg : JwtConfig) (st : TokenStorage TokenStr)
    (presented : Option TokenStr) (now : Nat) :
    Except ApiError (TokenStorage TokenStr × TokenStr × TokenStr) :=
  match presented with
  | none => .error (.authenticationError "Refresh token required.")
  | some token =>
      if is_token_blacklisted st token then
        .error (.authenticationError "Refresh token has been revoked.")
      else
        match verify_token cfg now token with
        | none => .error (.authenticationError "Invalid or expired refresh token.")
        | some payload =>
            if payload.kind ≠ .refresh then
              .error (.authenticationError "Invalid token type. Refresh token required.")
            else
              let username := payload.username
              if ¬ is_refresh_token_active st username token then
                .error (.authenticationError "Refresh token has been revoked.")
              else
                let newAccess := generate_access_token now username
                let newRefresh := generate_refresh_token now username
                let st₁ := (revoke_refresh_token st username token).1
                let st₂ := add_refresh_token st₁ username newRefresh
                .ok (st₂, newAccess, newRefresh)

/-- Embeds the `/api/logout` handler (`routes/auth.py`): best effort; if a
verifiable, non-blacklisted access token with a non-empty username is
presented, blacklist it and optionally revoke all the user's refresh
tokens; in every case the HTTP status is `HTTP_OK` (200). -/
def logout (cfg : JwtConfig) (st : TokenStorage TokenStr)
    (presented : Option TokenStr) (revokeAll : Bool) (now : Nat) :
    TokenStorage TokenStr × Nat :=
  match presented with
  | none => (st, 200)
  | some token =>
      match verify_token cfg now token with
      | none => (st, 200)
      | some payload =>
          if is_token_blacklisted st token then (st, 200)
          else
            if payload.kind = .access ∧ payload.username ≠ "" then
              let st₁ := blacklist_token st token
              if revokeAll then ((revoke_all_user_tokens st₁ payload.username).1, 200)
              else (st₁, 200)
            else (st, 200)

/-- A concrete storage holding one active refresh token for alice. -/
def c1Storage : TokenStorage String :=
  { active_refresh_tokens := [("alice", ["tokA"])], blacklisted_tokens := [] }

/-- C1: `revokeRefresh` is claimed to return true exactly when the token was
active and to add it to the blacklist.  On the concrete storage where
"tokA" is active for "alice", `revoke_refresh_token` removes the token
from the active set but returns `false` and leaves the blacklist empty:
`set.discard` returns `None`, so the truthiness test can never succeed. -/
theorem c1_revoke_refresh_token_never_reports_or_blacklists :
    is_refresh_token_active c1Storage "alice" "tokA" = true ∧
    revoke_refresh_token c1Storage "alice" "tokA" =
      ({ active_refresh_tokens := [("alice", [])], blacklisted_tokens := [] }, false) := by
  constructor
  · decide
  · decide

/-- JWT configuration with the source defaults (`config.py`): access TTL
900 seconds, refresh TTL 604800 seconds. -/
def defaultJwtConfig : JwtConfig :=
  { JWT_ACCESS_TOKEN_EXPIRES_IN := 900, JWT_REFRESH_TOKEN_EXPIRES_IN := 604800 }

/-- A refresh token for alice issued at second 5. -/
def c2OldToken : TokenStr :=
  .signed { username := "alice", kind := .refresh, iat := 5 }

/-- A storage in which alice's only active refresh token is `c2OldToken`. -/
def c2Storage : TokenStorage TokenStr :=
  { active_refresh_tokens := [("alice", [c2OldToken])], blacklisted_tokens := [] }

/-- C2, counterexample: a refresh performed in the same second in which the
old refresh token was issued re-encodes the identical token string, so the
call succeeds but the old token is still active afterwards (the resulting
storage is unchanged).  The claim that after every successful refresh the
old token is no longer active is therefore false at this input. -/
theorem c2_same_second_refresh_keeps_old_token_active :
    refresh_endpoint defaultJwtConfig c2Storage (some c2OldToken) 5 =
      .ok (c2Storage, .signed { username := "alice", kind := .access, iat := 5 }, c2OldToken) ∧
    is_refresh_token_active c2Storage "alice" c2OldToken = true :=
  ⟨rfl, rfl⟩

theorem dictGet?_add_refresh_token {τ : Type} [DecidableEq τ]
    (st : TokenStorage τ) (u : String) (t : τ) :
    dictGet? (add_refresh_token st u t).active_refresh_tokens u =
      some (setAdd ((dictGet? st.active_refresh_tokens u).getD []) t) := by
  simp [add_refresh_token, dictGet?_dictSet_self]

/-- C2: provided the refresh happens at a second `now` distinct from the
old token's issue second `s` (so that the freshly encoded refresh token
differs from the old one), a refresh with an active, non-blacklisted,
unexpired refresh token succeeds with a new access+refresh pair; the old
token is no longer active, the new one is, and presenting the old token
to the refresh-gated endpoint again fails with an `AuthenticationError`.
The per-user active collection is a Python set, hence duplicate-free. -/
theorem c2_refresh_rotation (cfg : JwtConfig) (st : TokenStorage TokenStr)
    (u : String) (s now : Nat)
    (hact : is_refresh_token_active st u (.signed ⟨u, .refresh, s⟩) = true)
    (hbl : is_token_blacklisted st (.signed ⟨u, .refresh, s⟩) = false)
    (hexp : now ≤ s + cfg.JWT_REFRESH_TOKEN_EXPIRES_IN)
    (hnodup : ((dictGet? st.active_refresh_tokens u).getD []).Nodup)
    (hne : now ≠ s) :
    ∃ st' : TokenStorage TokenStr,
      refresh_endpoint cfg st (some (.signed ⟨u, .refresh, s⟩)) now =
        .ok (st', .signed ⟨u, .access, now⟩, .signed ⟨u, .refresh, now⟩) ∧
      is_refresh_token_active st' u (.signed ⟨u, .refresh, s⟩) = false ∧
      is_refresh_token_active st' u (.signed ⟨u, .refresh, now⟩) = true ∧
      refresh_endpoint cfg st' (some (.signed ⟨u, .refresh, s⟩)) now =
        .error (.authenticationError "Refresh token has been revoked.") := by
  set old : TokenStr := .signed ⟨u, .refresh, s⟩ with hold
  have hver : verify_token cfg now old = some ⟨u, .refresh, s⟩ := by
    simp only [hold, verify_token, tokenExp]
    rw [if_neg]
    omega
  obtain ⟨sset, hsset⟩ : ∃ sset, dictGet? st.active_refresh_tokens u = some sset := by
    cases h : dictGet? st.active_refresh_tokens u with
    | none => simp [is_refresh_token_active, h] at hact
    | some sset => exact ⟨sset, rfl⟩
  have hmem : old ∈ sset := by
    simpa [is_refresh_token_active, hsset] using hact
  have hnodup' : sset.Nodup := by simpa [hsset] using hnodup
  have hnotmem : old ∉ sset.erase old := by
    intro hc
    exact ((List.Nodup.mem_erase_iff hnodup').mp hc).1 rfl
  have hrev : revoke_refresh_token st u old =
      ({ st with active_refresh_tokens :=
          dictSet st.active_refresh_tokens u (sset.erase old) }, false) := by
    simp [revoke_refresh_token, hsset, hnotmem]
  set st₁ : TokenStorage TokenStr :=
    { st with active_refresh_tokens :=
        dictSet st.active_refresh_tokens u (sset.erase old) } with hst₁
  set newR : TokenStr := .signed ⟨u, .refresh, now⟩ with hnewR
  set st₂ := add_refresh_token st₁ u newR with hst₂
  have hrun : refresh_endpoint cfg st (some old) now =
      .ok (st₂, .signed ⟨u, .access, now⟩, newR) := by
    simp [refresh_endpoint, hbl, hver, hact, hrev, hst₂,
      generate_access_token, generate_refresh_token, hnewR, hst₁]
  have hget₁ : dictGet? st₁.active_refresh_tokens u = some (sset.erase old) := by
    simp [hst₁, dictGet?_dictSet_self]
  have holdne : old ≠ newR := by
    rw [hold, hnewR]
    intro h
    injection h with hc
    exact hne (congrArg TokenClaims.iat hc).symm
  have hact₂ : dictGet? st₂.active_refresh_tokens u =
      some (setAdd (sset.erase old) newR) := by
    rw [hst₂, dictGet?_add_refresh_token, hget₁]
    rfl
  have hnotact : is_refresh_token_active st₂ u old = false := by
    simp only [is_refresh_token_active, hact₂, Option.getD_some,
      decide_eq_false_iff_not]
    rw [mem_setAdd]
    rintro (hmem' | heq)
    · exact hnotmem hmem'
    · exact holdne heq
  have hnewact : is_refresh_token_active st₂ u newR = true := by
    simp only [is_refresh_token_active, hact₂, Option.getD_some,
      decide_eq_true_eq]
    rw [mem_setAdd]
    exact Or.inr rfl
  have hbl₂ : st₂.blacklisted_tokens = st.blacklisted_tokens := by
    simp [hst₂, add_refresh_token, hst₁]
  refine ⟨st₂, hrun, hnotact, hnewact, ?_⟩
  have hbl' : is_token_blacklisted st₂ old = false := by
    simpa [is_token_blacklisted, hbl₂] using hbl
  simp [refresh_endpoint, hbl', hver, hnotact]

/-- C2 witness: the rotation theorem applied to a storage holding a
refresh token issued at second 5, refreshed at second 6. -/
theorem c2_refresh_rotation_witness :
    ∃ st' : TokenStorage TokenStr,
      refresh_endpoint defaultJwtConfig c2Storage (some (.signed ⟨"alice", .refresh, 5⟩)) 6 =
        .ok (st', .signed ⟨"alice", .access, 6⟩, .signed ⟨"alice", .refresh, 6⟩) ∧
      is_refresh_token_active st' "alice" (.signed ⟨"alice", .refresh, 5⟩) = false ∧
      is_refresh_token_active st' "alice" (.signed ⟨"alice", .refresh, 6⟩) = true ∧
      refresh_endpoint defaultJwtConfig st' (some (.signed ⟨"alice", .refresh, 5⟩)) 6 =
        .error (.authenticationError "Refresh token has been revoked.") :=
  c2_refresh_rotation defaultJwtConfig c2Storage "alice" 5 6
    (by decide) (by decide) (by decide) (by decide) (by decide)

/-- C9: logout always reports success (HTTP 200), for every starting
state and every presented token — valid, invalid (junk), blacklisted or
absent — and calling it twice in a row with the same (or no) token
reports success both times. -/
theorem c9_logout_always_succeeds (cfg : JwtConfig) (st : TokenStorage TokenStr)
    (presented : Option TokenStr) (revokeAll : Bool) (now : Nat) :
    (logout cfg st presented revokeAll now).2 = 200 ∧
    (logout cfg (logout cfg st presented revokeAll now).1 presented revokeAll now).2 = 200 := by
  have h : ∀ st' : TokenStorage TokenStr, (logout cfg st' presented revokeAll now).2 = 200 := by
    intro st'
    cases presented with
    | none => rfl
    | some token =>
        cases hv : verify_token cfg now token with
        | none => simp [logout, hv]
        | some payload =>
            by_cases hb : is_token_blacklisted st' token
            · simp [logout, hv, hb]
            · by_cases hk : payload.kind = TokenKind.access ∧ payload.username ≠ ""
              · by_cases hr : revokeAll <;> simp [logout, hv, hb, hk, hr]
              · simp [logout, hv, hb, hk]
  exact ⟨h st, h _⟩

/-! ## Rate limiter (`utils/rate_limiter.py`)

Python strings are modelled as lists of characters (`PyStr`), timestamps
(`time.time()`) as integers.  A `locked_until`/`first_attempt` of `None`
is modelled by `none`; the Python falsiness of the float `0.0` is not
modelled, so theorems below carry positivity hypotheses keeping the two
readings in agreement. -/

abbrev PyStr : Type := List Char

/-- Embeds Python `str.lower()` (ASCII letters; identifiers here are IPs,
colons and validated usernames). -/
def pyLower (s : PyStr) : PyStr := s.map Char.toLower

/-- Embeds `RateLimiter._get_identifier`: `f"{ip}:{username.lower()}"`
when `username` is truthy (present and non-empty), else the IP alone. -/
def _get_identifier (ip : PyStr) (username : Option PyStr) : PyStr :=
  match username with
  | some u => if u ≠ [] then ip ++ ':' :: pyLower u else ip
  | none => ip

structure RLConfig where
  RATE_LIMIT_MAX_ATTEMPTS : Nat
  RATE_LIMIT_WINDOW_SECONDS : Int
  RATE_LIMIT_LOCKOUT_DURATION : Int

/-- Rate limiter defaults from `config.py`: 5 attempts, 300 s window,
900 s lockout. -/
def defaultRLConfig : RLConfig :=
  { RATE_LIMIT_MAX_ATTEMPTS := 5, RATE_LIMIT_WINDOW_SECONDS := 300,
    RATE_LIMIT_LOCKOUT_DURATION := 900 }

structure RLEntry where
  attempts : Nat
  first_attempt : Option Int
  locked_until : Option Int
deriving DecidableEq

/-- The defaultdict default: `{'attempts': 0, 'first_attempt': None,
'locked_until': None}`. -/
def defaultRLEntry : RLEntry :=
  { attempts := 0, first_attempt := none, locked_until := none }

abbrev RLState : Type := List (PyStr × RLEntry)

/-- Reading `self.failed_attempts[identifier]` (default on absent key). -/
def getEntry (st : RLState) (id : PyStr) : RLEntry :=
  (dictGet? st id).getD defaultRLEntry

/-- Embeds `RateLimiter._is_locked`, including its side effect of clearing
an expired lock; the defaultdict access materializes the entry. -/
def _is_locked (st : RLState) (id : PyStr) (now : Int) : RLState × Bool :=
  let entry := getEntry st id
  match entry.locked_until with
  | some lu =>
      if lu > now then (dictSet st id entry, true)
      else (dictSet st id defaultRLEntry, false)
  | none => (dictSet st id entry, false)

/-- Embeds `RateLimiter._get_lockout_duration`. -/
def _get_lockout_duration (cfg : RLConfig) (attempts : Nat) : Int :=
  if cfg.RATE_LIMIT_MAX_ATTEMPTS ≤ attempts then cfg.RATE_LIMIT_LOCKOUT_DURATION
  else 0

/-- The entry transformation performed by
`RateLimiter.record_failed_attempt` on the identifier's entry: reset the
streak if the window has elapsed (or no streak exists), increment, and
lock when the threshold is reached. -/
def recordEntryUpdate (cfg : RLConfig) (entry : RLEntry) (now : Int) : RLEntry :=
  let e₁ :=
    match entry.first_attempt with
    | none => { entry with first_attempt := some now, attempts := 0 }
    | some fa =>
        if now - fa > cfg.RATE_LIMIT_WINDOW_SECONDS then
          { entry with first_attempt := some now, attempts := 0 }
        else entry
  let e₂ := { e₁ with attempts := e₁.attempts + 1 }
  if cfg.RATE_LIMIT_MAX_ATTEMPTS ≤ e₂.attempts then
    { e₂ with locked_until := some (now + _get_lockout_duration cfg e₂.attempts) }
  else e₂

/-- Embeds `RateLimiter.record_failed_attempt`. -/
def record_failed_attempt (cfg : RLConfig) (st : RLState) (ip : PyStr)
    (username : Option PyStr) (now : Int) : RLState :=
  let id := _get_identifier ip username
  dictSet st id (recordEntryUpdate cfg (getEntry st id) now)

/-- Embeds `RateLimiter.check_rate_limit`: returns the updated state and
the `(is_allowed, error_message, retry_after_seconds)` triple.  When not
allowed the auth routes raise `RateLimitError(error_msg, retry_after)`. -/
def check_rate_limit (cfg : RLConfig) (st : RLState) (ip : PyStr)
    (username : Option PyStr) (now : Int) :
    RLState × (Bool × Option String × Option Int) :=
  let id := _get_identifier ip username
  let p := _is_locked st id now
  if p.2 then
    let entry := getEntry p.1 id
    let retryAfter := entry.locked_until.getD 0 - now
    let msg := "Too many failed attempts. Please try again in " ++
      toString retryAfter ++ " seconds."
    (p.1, (false, some msg, some retryAfter))
  else
    let entry := getEntry p.1 id
    match entry.first_attempt with
    | some fa =>
        if now - fa > cfg.RATE_LIMIT_WINDOW_SECONDS then
          (dictSet p.1 id { entry with attempts := 0, first_attempt := none },
           (true, none, none))
        else (p.1, (true, none, none))
    | none => (p.1, (true, none, none))

/-- Embeds `RateLimiter.reset_attempts`. -/
def reset_attempts (st : RLState) (ip : PyStr) (username : Option PyStr) :
    RLState × Bool :=
  let id := _get_identifier ip username
  if (dictGet? st id).isSome then (dictSet st id defaultRLEntry, true)
  else (st, false)

/-- Folding a sequence of recorded failures for one identifier. -/
def foldRecord (cfg : RLConfig) (ip : PyStr) (username : Option PyStr)
    (st : RLState) (ts : List Int) : RLState :=
  ts.foldl (fun s t => record_failed_attempt cfg s ip username t) st

theorem getEntry_dictSet_self (st : RLState) (id : PyStr) (e : RLEntry) :
    getEntry (dictSet st id e) id = e := by
  simp [getEntry, dictGet?_dictSet_self]

theorem getEntry_foldRecord (cfg : RLConfig) (ip : PyStr) (username : Option PyStr)
    (ts : List Int) : ∀ st : RLState,
    getEntry (foldRecord cfg ip username st ts) (_get_identifier ip username) =
      ts.foldl (recordEntryUpdate cfg)
        (getEntry st (_get_identifier ip username)) := by
  induction ts with
  | nil => intro st; rfl
  | cons t ts' ih =>
      intro st
      have hstep : getEntry (record_failed_attempt cfg st ip username t)
          (_get_identifier ip username) =
          recordEntryUpdate cfg (getEntry st (_get_identifier ip username)) t := by
        simp [record_failed_attempt, getEntry_dictSet_self]
      calc getEntry (foldRecord cfg ip username st (t :: ts')) (_get_identifier ip username)
          = getEntry (foldRecord cfg ip username
              (record_failed_attempt cfg st ip username t) ts')
              (_get_identifier ip username) := rfl
        _ = ts'.foldl (recordEntryUpdate cfg)
              (getEntry (record_failed_attempt cfg st ip username t)
                (_get_identifier ip username)) := ih _
        _ = ts'.foldl (recordEntryUpdate cfg)
              (recordEntryUpdate cfg (getEntry st (_get_identifier ip username)) t) := by
              rw [hstep]

theorem recordEntryUpdate_in_window (cfg : RLConfig) (a : Nat) (f : Int)
    (lk : Option Int) (t : Int) (hwt : t - f ≤ cfg.RATE_LIMIT_WINDOW_SECONDS) :
    recordEntryUpdate cfg ⟨a, some f, lk⟩ t =
      (if cfg.RATE_LIMIT_MAX_ATTEMPTS ≤ a + 1 then
        ⟨a + 1, some f, some (t + cfg.RATE_LIMIT_LOCKOUT_DURATION)⟩
      else ⟨a + 1, some f, lk⟩) := by
  have hin : ¬ (cfg.RATE_LIMIT_WINDOW_SECONDS < t - f) := by omega
  by_cases hmax : cfg.RATE_LIMIT_MAX_ATTEMPTS ≤ a + 1
  · simp [recordEntryUpdate, _get_lockout_duration, hin, hmax]
  · simp [recordEntryUpdate, hin, hmax]

theorem recordEntryUpdate_window_elapsed (cfg : RLConfig) (a : Nat) (f : Int)
    (lk : Option Int) (t : Int)
    (ht : cfg.RATE_LIMIT_WINDOW_SECONDS < t - f) :
    (recordEntryUpdate cfg ⟨a, some f, lk⟩ t).attempts = 1 := by
  by_cases hmax : cfg.RATE_LIMIT_MAX_ATTEMPTS ≤ 1
  · simp [recordEntryUpdate, ht, hmax]
  · simp [recordEntryUpdate, ht, hmax]

theorem foldEntry_locks (cfg : RLConfig) (f : Int) (ts : List Int) :
    ∀ (a : Nat) (lk : Option Int) (tN : Int),
      ts.getLast? = some tN →
      (∀ t ∈ ts, t - f ≤ cfg.RATE_LIMIT_WINDOW_SECONDS) →
      a + ts.length = cfg.RATE_LIMIT_MAX_ATTEMPTS →
      ts.foldl (recordEntryUpdate cfg) ⟨a, some f, lk⟩ =
        ⟨cfg.RATE_LIMIT_MAX_ATTEMPTS, some f,
          some (tN + cfg.RATE_LIMIT_LOCKOUT_DURATION)⟩ := by
  induction ts with
  | nil => intro a lk tN hlast _ _; simp at hlast
  | cons t ts' ih =>
      intro a lk tN hlast hwin hlen
      have hwt : t - f ≤ cfg.RATE_LIMIT_WINDOW_SECONDS := hwin t (by simp)
      cases ts' with
      | nil =>
          have htN : t = tN := by simpa using hlast
          have hmax : cfg.RATE_LIMIT_MAX_ATTEMPTS = a + 1 := by
            simpa using hlen.symm
          subst htN
          simp only [List.foldl_cons, List.foldl_nil]
          rw [recordEntryUpdate_in_window cfg a f lk t hwt, if_pos (by omega), hmax]
      | cons t₂ ts'' =>
          have hlt : ¬ cfg.RATE_LIMIT_MAX_ATTEMPTS ≤ a + 1 := by
            simp only [List.length_cons] at hlen
            omega
          have hlast' : (t₂ :: ts'').getLast? = some tN := by
            rw [← List.getLast?_cons_cons]
            exact hlast
          simp only [List.foldl_cons]
          rw [recordEntryUpdate_in_window cfg a f lk t hwt, if_neg hlt]
          refine ih (a + 1) lk tN hlast' ?_ ?_
          · intro x hx
            exact hwin x (List.mem_cons_of_mem t hx)
          · simp only [List.length_cons] at hlen ⊢
            omega

theorem check_rate_limit_when_locked (cfg : RLConfig) (st : RLState) (ip : PyStr)
    (username : Option PyStr) (now : Int) (a : Nat) (fa : Option Int) (lu : Int)
    (h : getEntry st (_get_identifier ip username) = ⟨a, fa, some lu⟩)
    (hnow : now < lu) :
    (check_rate_limit cfg st ip username now).2 =
      (false, some ("Too many failed attempts. Please try again in " ++
        toString (lu - now) ++ " seconds."), some (lu - now)) := by
  unfold check_rate_limit _is_locked
  simp only [h, gt_iff_lt, if_pos hnow]
  simp [getEntry_dictSet_self, h]

theorem check_rate_limit_when_clear (cfg : RLConfig) (st : RLState) (ip : PyStr)
    (username : Option PyStr) (now : Int)
    (h : getEntry st (_get_identifier ip username) = defaultRLEntry) :
    (check_rate_limit cfg st ip username now).2 = (true, none, none) := by
  unfold check_rate_limit _is_locked
  simp only [h, defaultRLEntry]
  simp [getEntry_dictSet_self, defaultRLEntry]

theorem getEntry_reset_attempts (st : RLState) (ip : PyStr)
    (username : Option PyStr) :
    getEntry (reset_attempts st ip username).1 (_get_identifier ip username) =
      defaultRLEntry := by
  unfold reset_attempts
  cases h : dictGet? st (_get_identifier ip username) with
  | none => simp [h, getEntry]
  | some e => simp [h, getEntry_dictSet_self]

/-- C6: starting from a clear entry, recording `N = maxAttempts` failures
inside one window locks the identifier with
`lockedUntil = lastFailureTime + lockoutDuration`; the next
`check_rate_limit` before the lock elapses denies the request with the
retry-after value that the route raises as `RateLimitError`; after
`reset_attempts` the next check allows again; and a failure recorded
after the window has elapsed resets the streak to 1.  The positivity
hypotheses keep the integer model aligned with Python float truthiness
(where a `0.0` timestamp would read as falsy). -/
theorem c6_rate_limiter_lockout_cycle (cfg : RLConfig) (ip : PyStr)
    (username : Option PyStr) (st0 : RLState) (ts : List Int) (t1 tN : Int)
    (now now' : Int) (ea : Nat) (lk : Option Int) (f t : Int)
    (h0 : getEntry st0 (_get_identifier ip username) = defaultRLEntry)
    (hhead : ts.head? = some t1)
    (hlast : ts.getLast? = some tN)
    (hlen : ts.length = cfg.RATE_LIMIT_MAX_ATTEMPTS)
    (hwin : ∀ x ∈ ts, t1 ≤ x ∧ x - t1 ≤ cfg.RATE_LIMIT_WINDOW_SECONDS)
    (ht1 : 0 < t1) (hlock : 0 < cfg.RATE_LIMIT_LOCKOUT_DURATION)
    (hnow : now < tN + cfg.RATE_LIMIT_LOCKOUT_DURATION)
    (ht : t - f > cfg.RATE_LIMIT_WINDOW_SECONDS) :
    getEntry (foldRecord cfg ip username st0 ts) (_get_identifier ip username) =
      ⟨cfg.RATE_LIMIT_MAX_ATTEMPTS, some t1,
        some (tN + cfg.RATE_LIMIT_LOCKOUT_DURATION)⟩ ∧
    (check_rate_limit cfg (foldRecord cfg ip username st0 ts) ip username now).2 =
      (false, some ("Too many failed attempts. Please try again in " ++
        toString (tN + cfg.RATE_LIMIT_LOCKOUT_DURATION - now) ++ " seconds."),
        some (tN + cfg.RATE_LIMIT_LOCKOUT_DURATION - now)) ∧
    (check_rate_limit cfg
      (reset_attempts (foldRecord cfg ip username st0 ts) ip username).1
      ip username now').2 = (true, none, none) ∧
    (recordEntryUpdate cfg ⟨ea, some f, lk⟩ t).attempts = 1 := by
  obtain ⟨rest, hts⟩ : ∃ rest, ts = t1 :: rest := by
    cases ts with
    | nil => simp at hhead
    | cons x xs =>
        have hx : x = t1 := by simpa using hhead
        exact ⟨xs, by rw [hx]⟩
  subst hts
  have hstep1 : recordEntryUpdate cfg defaultRLEntry t1 =
      (if cfg.RATE_LIMIT_MAX_ATTEMPTS ≤ 1 then
        ⟨1, some t1, some (t1 + cfg.RATE_LIMIT_LOCKOUT_DURATION)⟩
      else ⟨1, some t1, none⟩) := by
    by_cases hmax : cfg.RATE_LIMIT_MAX_ATTEMPTS ≤ 1
    · simp [recordEntryUpdate, defaultRLEntry, _get_lockout_duration, hmax]
    · simp [recordEntryUpdate, defaultRLEntry, hmax]
  have hentry : getEntry (foldRecord cfg ip username st0 (t1 :: rest))
      (_get_identifier ip username) =
      ⟨cfg.RATE_LIMIT_MAX_ATTEMPTS, some t1,
        some (tN + cfg.RATE_LIMIT_LOCKOUT_DURATION)⟩ := by
    rw [getEntry_foldRecord, h0]
    simp only [List.foldl_cons]
    rw [hstep1]
    cases rest with
    | nil =>
        have htN : t1 = tN := by simpa using hlast
        have hmax : cfg.RATE_LIMIT_MAX_ATTEMPTS = 1 := by simpa using hlen.symm
        subst htN
        rw [if_pos (by omega)]
        simp [hmax]
    | cons r rest' =>
        have hge2 : ¬ cfg.RATE_LIMIT_MAX_ATTEMPTS ≤ 1 := by
          simp only [List.length_cons] at hlen
          omega
        rw [if_neg hge2]
        have hlast' : (r :: rest').getLast? = some tN := by
          rw [← List.getLast?_cons_cons]
          exact hlast
        refine foldEntry_locks cfg t1 (r :: rest') 1 none tN hlast' ?_ ?_
        · intro x hx
          exact (hwin x (List.mem_cons_of_mem t1 hx)).2
        · simp only [List.length_cons] at hlen ⊢
          omega
  refine ⟨hentry, ?_, ?_, ?_⟩
  · exact check_rate_limit_when_locked cfg _ ip username now _ _ _ hentry hnow
  · exact check_rate_limit_when_clear cfg _ ip username now'
      (getEntry_reset_attempts _ ip username)
  · exact recordEntryUpdate_window_elapsed cfg ea f lk t ht

theorem c6_rate_limiter_lockout_cycle_witness :
    getEntry (foldRecord defaultRLConfig ("9.9.9.9").toList none [] [1, 2, 3, 4, 5])
      (_get_identifier ("9.9.9.9").toList none) =
      ⟨defaultRLConfig.RATE_LIMIT_MAX_ATTEMPTS, some 1,
        some (5 + defaultRLConfig.RATE_LIMIT_LOCKOUT_DURATION)⟩ ∧
    (check_rate_limit defaultRLConfig
      (foldRecord defaultRLConfig ("9.9.9.9").toList none [] [1, 2, 3, 4, 5])
      ("9.9.9.9").toList none 10).2 =
      (false, some ("Too many failed attempts. Please try again in " ++
        toString (5 + defaultRLConfig.RATE_LIMIT_LOCKOUT_DURATION - 10) ++ " seconds."),
        some (5 + defaultRLConfig.RATE_LIMIT_LOCKOUT_DURATION - 10)) ∧
    (check_rate_limit defaultRLConfig
      (reset_attempts
        (foldRecord defaultRLConfig ("9.9.9.9").toList none [] [1, 2, 3, 4, 5])
        ("9.9.9.9").toList none).1
      ("9.9.9.9").toList none 20).2 = (true, none, none) ∧
    (recordEntryUpdate defaultRLConfig ⟨3, some 2, none⟩ 303).attempts = 1 :=
  c6_rate_limiter_lockout_cycle defaultRLConfig ("9.9.9.9").toList none [] [1, 2, 3, 4, 5]
    1 5 10 20 3 none 2 303 (by decide) (by decide) (by decide) (by decide)
    (by decide) (by decide) (by decide) (by decide) (by decide)

/-- C10: the rate limiter lowercases the username when building the
identifier, so two usernames equal up to letter case yield the same
identifier from the same IP, and every rate-limiter operation (recording
failures, checking, resetting) treats them identically: failures recorded
for one count toward, and a lockout applies to, the other. -/
theorem c10_rate_limiter_identifier_case_insensitive (ip u₁ u₂ : PyStr)
    (cfg : RLConfig) (st : RLState) (now : Int)
    (h : pyLower u₁ = pyLower u₂) :
    _get_identifier ip (some u₁) = _get_identifier ip (some u₂) ∧
    record_failed_attempt cfg st ip (some u₁) now =
      record_failed_attempt cfg st ip (some u₂) now ∧
    check_rate_limit cfg st ip (some u₁) now =
      check_rate_limit cfg st ip (some u₂) now ∧
    reset_attempts st ip (some u₁) = reset_attempts st ip (some u₂) := by
  have hlen : u₁.length = u₂.length := by
    have := congrArg List.length h
    simpa [pyLower] using this
  have hid : _get_identifier ip (some u₁) = _get_identifier ip (some u₂) := by
    unfold _get_identifier
    by_cases h1 : u₁ = []
    · have h2 : u₂ = [] := by
        cases u₂ with
        | nil => rfl
        | cons c cs => rw [h1] at hlen; simp at hlen
      simp [h1, h2]
    · have h2 : u₂ ≠ [] := by
        intro hc
        rw [hc] at hlen
        simp at hlen
        exact h1 hlen
      simp only [if_pos (by simpa using h1), if_pos (by simpa using h2), h]
  refine ⟨hid, ?_, ?_, ?_⟩
  · unfold record_failed_attempt
    rw [hid]
  · unfold check_rate_limit _is_locked
    rw [hid]
  · unfold reset_attempts
    rw [hid]

/-- C10 witness: the identifier theorem applied to usernames Alice and
aLICE from one IP, on a state where three failures are on record. -/
theorem c10_rate_limiter_identifier_case_insensitive_witness :
    _get_identifier ("9.9.9.9").toList (some ("Alice").toList) =
      _get_identifier ("9.9.9.9").toList (some ("aLICE").toList) ∧
    record_failed_attempt defaultRLConfig
      [(( "9.9.9.9:alice").toList, ⟨3, some 2, none⟩)]
      ("9.9.9.9").toList (some ("Alice").toList) 7 =
      record_failed_attempt defaultRLConfig
        [(( "9.9.9.9:alice").toList, ⟨3, some 2, none⟩)]
        ("9.9.9.9").toList (some ("aLICE").toList) 7 ∧
    check_rate_limit defaultRLConfig
      [(( "9.9.9.9:alice").toList, ⟨3, some 2, none⟩)]
      ("9.9.9.9").toList (some ("Alice").toList) 7 =
      check_rate_limit defaultRLConfig
        [(( "9.9.9.9:alice").toList, ⟨3, some 2, none⟩)]
        ("9.9.9.9").toList (some ("aLICE").toList) 7 ∧
    reset_attempts [(( "9.9.9.9:alice").toList, ⟨3, some 2, none⟩)]
      ("9.9.9.9").toList (some ("Alice").toList) =
      reset_attempts [(( "9.9.9.9:alice").toList, ⟨3, some 2, none⟩)]
        ("9.9.9.9").toList (some ("aLICE").toList) :=
  c10_rate_limiter_identifier_case_insensitive ("9.9.9.9").toList
    ("Alice").toList ("aLICE").toList defaultRLConfig
    [(( "9.9.9.9:alice").toList, ⟨3, some 2, none⟩)] 7 (by decide)

/-! ## Validators and signup (`utils/validators.py`, `services/user_service.py`,
`routes/auth.py`)

Python strings are `PyStr` (lists of characters); `str.strip`, `str.replace`
and `str.isalnum` are modelled for the ASCII range. -/

/-- Embeds Python `str.strip()`: drop leading and trailing whitespace. -/
def pyStrip (s : PyStr) : PyStr :=
  ((s.dropWhile Char.isWhitespace).reverse.dropWhile Char.isWhitespace).reverse

/-- Embeds Python `str.isalnum()` (ASCII range): false on the empty string,
else every character alphanumeric. -/
def pyIsAlnum (s : PyStr) : Bool :=
  !s.isEmpty && s.all Char.isAlphanum

/-- The predicate under `username.replace('_', '')`: keep non-underscores. -/
def notUnderscore (c : Char) : Bool := c != '_'

/-- Embeds `validate_username`: required, then the *stripped* username must
be 3..50 characters and, with underscores removed, pass `isalnum`. -/
def validate_username (username : PyStr) : Bool × Option String :=
  if username = [] then (false, some "Username is required")
  else
    let u := pyStrip username
    if u.length < 3 then
      (false, some "Username must be at least 3 characters long")
    else if u.length > 50 then
      (false, some "Username must be no more than 50 characters long")
    else if pyIsAlnum (u.filter notUnderscore) then (true, none)
    else (false, some "Username can only contain letters, numbers, and underscores")

/-- Embeds `validate_password`: required, length 6..128. -/
def validate_password (password : PyStr) : Bool × Option String :=
  if password = [] then (false, some "Password is required")
  else if password.length < 6 then
    (false, some "Password must be at least 6 characters long")
  else if password.length > 128 then
    (false, some "Password must be no more than 128 characters long")
  else (true, none)

/-- Modelled from the spec: the Credential Store.  `UserStorage`
(`storage/file_storage.py`) is not among the sources; per the spec it
persists username/password-hash pairs in a single credential collection,
keyed by the exact (case-sensitive) username. -/
abbrev UserStore : Type := List (PyStr × PyStr)

/-- Embeds `UserService.user_exists` over the modelled store. -/
def user_exists (users : UserStore) (username : PyStr) : Bool :=
  (dictGet? users username).isSome

/-- Embeds `UserService.create_user`: reject an existing username with
`ValidationError`, else hash the password and add the credential (the
bcrypt hash is an abstract function parameter). -/
def create_user (hash : PyStr → PyStr) (users : UserStore)
    (username password : PyStr) : Except ApiError UserStore :=
  if user_exists users username then
    .error (.validationError "Username already exists" (some "username"))
  else .ok (users ++ [(username, hash password)])

/-- Embeds the `/api/signup` pipeline (`routes/auth.py`): rate-limit gate,
username validation, password validation, then `create_user`.  Note that
validation inspects the *stripped* username while `create_user` stores the
*raw* request username. -/
def signup_core (hash : PyStr → PyStr) (users : UserStore)
    (rateLimited : Bool) (username password : PyStr) :
    Except ApiError UserStore :=
  if rateLimited then .error (.rateLimitError "Too many failed attempts." 0)
  else
    let vu := validate_username username
    if vu.1 then
      let vp := validate_password password
      if vp.1 then create_user hash users username password
      else .error (.validationError (vp.2.getD "") (some "password"))
    else .error (.validationError (vu.2.getD "") (some "username"))

/-- A concrete stand-in for the bcrypt hash in closed statements. -/
def c7Hash (p : PyStr) : PyStr := '#' :: p

theorem dictGet?_eq_none_iff {κ α : Type} [DecidableEq κ]
    (d : List (κ × α)) (k : κ) :
    dictGet? d k = none ↔ k ∉ d.map Prod.fst := by
  induction d with
  | nil => simp [dictGet?]
  | cons hd tl ih =>
      obtain ⟨k₀, v₀⟩ := hd
      by_cases h : k = k₀ <;> simp [dictGet?, h, ih]

theorem validate_username_true (u : PyStr)
    (h : (validate_username u).1 = true) :
    3 ≤ (pyStrip u).length ∧ (pyStrip u).length ≤ 50 ∧
      pyIsAlnum ((pyStrip u).filter notUnderscore) = true := by
  by_cases h0 : u = []
  · simp [validate_username, h0] at h
  · by_cases h1 : (pyStrip u).length < 3
    · simp [validate_username, h0, h1] at h
    · by_cases h2 : (pyStrip u).length > 50
      · simp [validate_username, h0, h1, h2] at h
      · by_cases h3 : pyIsAlnum ((pyStrip u).filter notUnderscore) = true
        · exact ⟨by omega, by omega, h3⟩
        · simp [validate_username, h0, h1, h2, h3] at h

theorem pyIsAlnum_filter_chars (s : PyStr)
    (h : pyIsAlnum (s.filter notUnderscore) = true) :
    ∀ c ∈ s, c = '_' ∨ c.isAlphanum = true := by
  intro c hc
  by_cases hu : c = '_'
  · exact Or.inl hu
  · refine Or.inr ?_
    have hmem : c ∈ s.filter notUnderscore :=
      List.mem_filter.mpr ⟨hc, by simp [notUnderscore, hu]⟩
    have hall : (s.filter notUnderscore).all Char.isAlphanum = true :=
      (Bool.and_eq_true _ _ |>.mp h).2
    exact List.all_eq_true.mp hall c hmem

/-- C7, counterexample: signup accepts the username consisting of
space, a, b, c, space — validation strips it to abc, but the raw
five-character username (containing spaces, which are neither letters,
digits nor underscores) is what gets stored. -/
theorem c7_signup_stores_unstripped_username :
    signup_core c7Hash [] false (" abc ").toList ("secret1").toList =
      .ok [((" abc ").toList, c7Hash ("secret1").toList)] ∧
    ¬ (∀ c ∈ (" abc ").toList, c = '_' ∨ c.isAlphanum = true) := by
  constructor
  · rfl
  · decide

/-- C7: a signup the store accepts appends a credential whose username is
absent from the store (exact-string uniqueness, preserving key
distinctness), and whose *stripped* form is 3..50 characters drawn from
letters, digits and underscores; a duplicate signup of a stored username
(passing shape validation) fails with `ValidationError` and, returning no
new store, leaves the existing credential unchanged.  The raw stored
username itself may carry surrounding whitespace. -/
theorem c7_signup_credential_invariant (hash : PyStr → PyStr)
    (users users' : UserStore) (rl : Bool) (u p u₂ p₂ hpw : PyStr)
    (hok : signup_core hash users rl u p = .ok users')
    (hdup : dictGet? users u₂ = some hpw)
    (hvu : (validate_username u₂).1 = true)
    (hvp : (validate_password p₂).1 = true) :
    users' = users ++ [(u, hash p)] ∧
    dictGet? users u = none ∧
    3 ≤ (pyStrip u).length ∧ (pyStrip u).length ≤ 50 ∧
    (∀ c ∈ pyStrip u, c = '_' ∨ c.isAlphanum = true) ∧
    ((users.map Prod.fst).Nodup → (users'.map Prod.fst).Nodup) ∧
    signup_core hash users false u₂ p₂ =
      .error (.validationError "Username already exists" (some "username")) := by
  have hrl : rl = false := by
    cases rl
    · rfl
    · simp [signup_core] at hok
  subst hrl
  have hvu1 : (validate_username u).1 = true := by
    by_cases h : (validate_username u).1 = true
    · exact h
    · simp [signup_core, h] at hok
  have hvp1 : (validate_password p).1 = true := by
    by_cases h : (validate_password p).1 = true
    · exact h
    · simp [signup_core, hvu1, h] at hok
  have hcreate : create_user hash users u p = .ok users' := by
    simpa [signup_core, hvu1, hvp1] using hok
  have hnone : dictGet? users u = none := by
    by_cases h : user_exists users u = true
    · simp [create_user, h] at hcreate
    · unfold user_exists at h
      exact Option.not_isSome_iff_eq_none.mp (by simpa using h)
  have husers' : users' = users ++ [(u, hash p)] := by
    have hok2 : create_user hash users u p = .ok (users ++ [(u, hash p)]) := by
      simp [create_user, user_exists, hnone]
    rw [hok2] at hcreate
    exact (Except.ok.inj hcreate).symm
  obtain ⟨hlen3, hlen50, halnum⟩ := validate_username_true u hvu1
  refine ⟨husers', hnone, hlen3, hlen50, pyIsAlnum_filter_chars _ halnum, ?_, ?_⟩
  · intro hnd
    rw [husers']
    simp only [List.map_append, List.map_cons, List.map_nil]
    rw [List.nodup_append]
    refine ⟨hnd, List.nodup_singleton _, ?_⟩
    intro a ha hb
    have hu : u ∉ users.map Prod.fst := (dictGet?_eq_none_iff users u).mp hnone
    have hau : a = u := by simpa using hb
    subst hau
    exact hu ha
  · simp [signup_core, hvu, hvp, create_user, user_exists, hdup]

/-- C7 witness: the invariant applied to a store holding bob, with a fresh
signup for alice and a duplicate signup for bob. -/
theorem c7_signup_credential_invariant_witness :
    [(("bob").toList, c7Hash ("hunter2").toList)] ++
        [(("alice").toList, c7Hash ("secret1").toList)] =
      [(("bob").toList, c7Hash ("hunter2").toList)] ++
        [(("alice").toList, c7Hash ("secret1").toList)] ∧
    dictGet? [(("bob").toList, c7Hash ("hunter2").toList)] ("alice").toList = none ∧
    3 ≤ (pyStrip ("alice").toList).length ∧ (pyStrip ("alice").toList).length ≤ 50 ∧
    (∀ c ∈ pyStrip ("alice").toList, c = '_' ∨ c.isAlphanum = true) ∧
    (([(("bob").toList, c7Hash ("hunter2").toList)].map Prod.fst).Nodup →
      ((([(("bob").toList, c7Hash ("hunter2").toList)] ++
        [(("alice").toList, c7Hash ("secret1").toList)]).map Prod.fst)).Nodup) ∧
    signup_core c7Hash [(("bob").toList, c7Hash ("hunter2").toList)] false
      ("bob").toList ("hunter2x").toList =
      .error (.validationError "Username already exists" (some "username")) :=
  c7_signup_credential_invariant c7Hash
    [(("bob").toList, c7Hash ("hunter2").toList)]
    ([(("bob").toList, c7Hash ("hunter2").toList)] ++
      [(("alice").toList, c7Hash ("secret1").toList)])
    false ("alice").toList ("secret1").toList ("bob").toList ("hunter2x").toList
    (c7Hash ("hunter2").toList) (by rfl) (by rfl) (by decide) (by decide)

/-! ## Reading aggregation (`services/reading_service.py`)

A `Reading` carries a float temperature (modelled as a rational; float
representation error is not modelled) and an ISO-8601 UTC timestamp
(modelled as microseconds since the epoch).  `datetime.replace(second=0,
microsecond=0)` becomes flooring to a multiple of 60 000 000 µs.  Python's
`round(x, 2)` is round-half-to-even at two decimal places. -/

structure Reading where
  tempC : ℚ
  recordedAt : Nat
deriving DecidableEq

/-- Microseconds per minute. -/
def usPerMin : Nat := 60000000

/-- The minute bucket of a timestamp: seconds and sub-seconds zeroed. -/
def minuteKey (t : Nat) : Nat := t / usPerMin * usPerMin

/-- One step of building `minute_groups`: `defaultdict(list)[k].append(v)`
materializes the key and appends the value. -/
def dictAppendVal (d : List (Nat × List ℚ)) (k : Nat) (v : ℚ) :
    List (Nat × List ℚ) :=
  match dictGet? d k with
  | some vs => dictSet d k (vs ++ [v])
  | none => d ++ [(k, [v])]

/-- The `minute_groups` dict of `_average_by_minute`: values grouped by
minute key, insertion-ordered as in a Python dict. -/
def minuteGroups (readings : List Reading) : List (Nat × List ℚ) :=
  readings.foldl (fun acc r => dictAppendVal acc (minuteKey r.recordedAt) r.tempC) []

/-- Round-half-to-even to an integer (the rounding of Python's `round`). -/
def roundHalfToEven (q : ℚ) : Int :=
  let n := ⌊q⌋
  let r := q - n
  if r < 1/2 then n
  else if 1/2 < r then n + 1
  else if n % 2 = 0 then n else n + 1

/-- Python's `round(x, 2)`. -/
def pyRound2 (q : ℚ) : ℚ := (roundHalfToEven (q * 100) : ℚ) / 100

/-- Ordering of `(minute, values)` items by minute key, as used by
`sorted(minute_groups.items())` (keys are pairwise distinct, so comparison
of items reduces to comparison of keys). -/
def keyLE (a b : Nat × List ℚ) : Prop := a.1 ≤ b.1

instance : DecidableRel keyLE := fun a b => Nat.decLe a.1 b.1

instance : IsTotal (Nat × List ℚ) keyLE := ⟨fun a b => Nat.le_total a.1 b.1⟩

instance : IsTrans (Nat × List ℚ) keyLE := ⟨fun _ _ _ h1 h2 => Nat.le_trans h1 h2⟩

/-- Embeds `ReadingService._average_by_minute`: short-circuit on the empty
list, group by minute, then `sorted(minute_groups.items())` — keys are
pairwise distinct, so any comparison sort produces the unique key-ordered
arrangement, here realized by insertion sort on the key — and emit one
averaged reading per minute, rounded to 2 decimal places. -/
def _average_by_minute (readings : List Reading) : List Reading :=
  if readings = [] then []
  else
    let sortedGroups := List.insertionSort keyLE (minuteGroups readings)
    sortedGroups.map (fun g =>
      { tempC := pyRound2 (g.2.sum / (g.2.length : ℚ)), recordedAt := g.1 })

/-- An aggregation-service input string, modelled by its parse behavior
under `datetime.fromisoformat` (after `Z` normalization): empty, non-empty
but unparseable, or parseable to a UTC timestamp. -/
inductive IsoInput where
  | empty : IsoInput
  | invalid (s : String) : IsoInput
  | valid (s : String) (t : Nat) : IsoInput
deriving DecidableEq

/-- The parse outcome of an input. -/
def parseIso : IsoInput → Option Nat
  | .valid _ t => some t
  | _ => none

/-- Embeds `ReadingService.get_readings`: both bounds required, both must
parse, start must not exceed end; then delegate to the Reading Store query
(an abstract parameter — `storage/reading_storage.py` is not among the
sources) and average by minute. -/
def get_readings (store_query : Nat → Nat → List Reading)
    (startStr endStr : IsoInput) : Except ApiError (List Reading) :=
  if startStr = .empty then
    .error (.validationError "startDateTime is required" (some "startDateTime"))
  else if endStr = .empty then
    .error (.validationError "endDateTime is required" (some "endDateTime"))
  else
    match parseIso startStr with
    | none => .error (.validationError "Invalid startDateTime format" (some "startDateTime"))
    | some ts =>
        match parseIso endStr with
        | none => .error (.validationError "Invalid endDateTime format" (some "endDateTime"))
        | some te =>
            if ts > te then
              .error (.validationError
                "startDateTime must be before or equal to endDateTime"
                (some "startDateTime"))
            else .ok (_average_by_minute (store_query ts te))

/-- Whether a result is a `ValidationError` failure. -/
def isValidationError {α : Type} : Except ApiError α → Bool
  | .error (.validationError _ _) => true
  | _ => false

/-- C8: `get_readings` fails with `ValidationError` whenever a bound is
missing or unparseable, and whenever start exceeds end — regardless of the
store contents — and raises no `ValidationError` when both bounds parse
with start ≤ end (the result is the minute-averaged query). -/
theorem c8_get_readings_validation (store : Nat → Nat → List Reading)
    (s e : IsoInput) (ss es ss₂ es₂ : String) (ts₁ te₁ ts₂ te₂ : Nat)
    (hbad : s = .empty ∨ e = .empty ∨ parseIso s = none ∨ parseIso e = none)
    (hgt : te₁ < ts₁) (hle : ts₂ ≤ te₂) :
    isValidationError (get_readings store s e) = true ∧
    isValidationError (get_readings store (.valid ss ts₁) (.valid es te₁)) = true ∧
    get_readings store (.valid ss₂ ts₂) (.valid es₂ te₂) =
      .ok (_average_by_minute (store ts₂ te₂)) := by
  refine ⟨?_, ?_, ?_⟩
  · cases s with
    | empty => simp [get_readings, isValidationError]
    | invalid s₀ =>
        cases e with
        | empty => simp [get_readings, isValidationError]
        | invalid e₀ => simp [get_readings, isValidationError, parseIso]
        | valid e₀ t => simp [get_readings, isValidationError, parseIso]
    | valid s₀ t =>
        cases e with
        | empty => simp [get_readings, isValidationError]
        | invalid e₀ => simp [get_readings, isValidationError, parseIso]
        | valid e₀ t₂ =>
            exfalso
            rcases hbad with h | h | h | h <;> simp [parseIso] at h
  · have hcond : ts₁ > te₁ := hgt
    simp [get_readings, parseIso, isValidationError, hcond]
  · have hcond : ¬ ts₂ > te₂ := by omega
    simp [get_readings, parseIso, isValidationError, hcond]

/-- C8 witness: the validation theorem applied to an empty start bound, the
inverted pair (5, 3), and the well-ordered pair (3, 5) over an empty store. -/
theorem c8_get_readings_validation_witness :
    isValidationError (get_readings (fun x y => []) IsoInput.empty IsoInput.empty) = true ∧
    isValidationError (get_readings (fun x y => [])
      (.valid "2026-01-01T00:00:05Z" 5) (.valid "2026-01-01T00:00:03Z" 3)) = true ∧
    get_readings (fun x y => [])
      (.valid "2026-01-01T00:00:03Z" 3) (.valid "2026-01-01T00:00:05Z" 5) =
      .ok (_average_by_minute ((fun x y => ([] : List Reading)) 3 5)) :=
  c8_get_readings_validation (fun x y => []) IsoInput.empty IsoInput.empty
    "2026-01-01T00:00:05Z" "2026-01-01T00:00:03Z"
    "2026-01-01T00:00:03Z" "2026-01-01T00:00:05Z" 5 3 3 5
    (Or.inl rfl) (by decide) (by decide)

theorem dictGet?_append {κ α : Type} [DecidableEq κ]
    (d₁ d₂ : List (κ × α)) (k : κ) :
    dictGet? (d₁ ++ d₂) k =
      (match dictGet? d₁ k with
        | some v => some v
        | none => dictGet? d₂ k) := by
  induction d₁ with
  | nil => simp [dictGet?]
  | cons hd tl ih =>
      obtain ⟨k₀, v₀⟩ := hd
      by_cases h : k = k₀ <;> simp [dictGet?, h, ih]

theorem map_fst_dictSet_of_isSome {κ α : Type} [DecidableEq κ]
    (d : List (κ × α)) (k : κ) (v : α) (h : (dictGet? d k).isSome) :
    (dictSet d k v).map Prod.fst = d.map Prod.fst := by
  induction d with
  | nil => simp [dictGet?] at h
  | cons hd tl ih =>
      obtain ⟨k₀, v₀⟩ := hd
      by_cases hk : k = k₀
      · simp [dictSet, hk]
      · simp only [dictGet?, if_neg hk] at h
        simp [dictSet, hk, ih h]

theorem mem_iff_dictGet?_of_nodup {κ α : Type} [DecidableEq κ]
    (d : List (κ × α)) (hnd : (d.map Prod.fst).Nodup) (k : κ) (vs : α) :
    (k, vs) ∈ d ↔ dictGet? d k = some vs := by
  induction d with
  | nil => simp [dictGet?]
  | cons hd tl ih =>
      obtain ⟨k₀, v₀⟩ := hd
      simp only [List.map_cons, List.nodup_cons] at hnd
      obtain ⟨hk₀, hndtl⟩ := hnd
      by_cases hk : k = k₀
      · subst hk
        simp only [dictGet?, eq_self_iff_true, if_true, List.mem_cons,
          Option.some.injEq, Prod.mk.injEq, true_and]
        constructor
        · rintro (h | h)
          · exact h.symm
          · exact absurd (List.mem_map_of_mem Prod.fst h) hk₀
        · intro h
          exact Or.inl h.symm
      · simp only [dictGet?, if_neg hk, List.mem_cons]
        rw [← ih hndtl]
        constructor
        · rintro (h | h)
          · injection h with h1 h2
            exact absurd h1 hk
          · exact h
        · exact Or.inr

theorem minuteGroups_append (rs : List Reading) (r : Reading) :
    minuteGroups (rs ++ [r]) =
      dictAppendVal (minuteGroups rs) (minuteKey r.recordedAt) r.tempC := by
  simp [minuteGroups, List.foldl_append]

theorem dictGet?_minuteGroups (rs : List Reading) (k : Nat) :
    dictGet? (minuteGroups rs) k =
      (if rs.filter (fun r => minuteKey r.recordedAt = k) = [] then none
       else some ((rs.filter (fun r => minuteKey r.recordedAt = k)).map Reading.tempC)) := by
  induction rs using List.reverseRecOn with
  | nil => simp [minuteGroups, dictGet?]
  | append_singleton rs r ih =>
      by_cases hk : minuteKey r.recordedAt = k
      · rw [minuteGroups_append, hk, List.filter_append]
        have hfr : ([r] : List Reading).filter (fun x => minuteKey x.recordedAt = k) = [r] := by
          simp [hk]
        rw [hfr]
        unfold dictAppendVal
        cases hd : dictGet? (minuteGroups rs) k with
        | none =>
            have hfil : rs.filter (fun x => minuteKey x.recordedAt = k) = [] := by
              rw [hd] at ih
              by_cases hf : rs.filter (fun x => minuteKey x.recordedAt = k) = []
              · exact hf
              · rw [if_neg hf] at ih
                exact absurd ih (by simp)
            rw [dictGet?_append, hd, hfil]
            simp [dictGet?]
        | some vs =>
            have hfil : ¬ rs.filter (fun x => minuteKey x.recordedAt = k) = [] := by
              intro hf
              rw [hd, if_pos hf] at ih
              exact absurd ih (by simp)
            have hvs : vs = (rs.filter (fun x => minuteKey x.recordedAt = k)).map Reading.tempC := by
              rw [hd, if_neg hfil] at ih
              simpa using ih
            rw [dictGet?_dictSet_self, if_neg (by simp)]
            simp [hvs]
      · rw [minuteGroups_append, List.filter_append]
        have hfr : ([r] : List Reading).filter (fun x => minuteKey x.recordedAt = k) = [] := by
          simp [hk]
        rw [hfr, List.append_nil]
        unfold dictAppendVal
        cases hd : dictGet? (minuteGroups rs) (minuteKey r.recordedAt) with
        | none =>
            rw [dictGet?_append, ← ih]
            have hne : ¬ k = minuteKey r.recordedAt := fun h => hk h.symm
            cases hx : dictGet? (minuteGroups rs) k with
            | none => simp [dictGet?, hne]
            | some vs => simp
        | some vs =>
            rw [dictGet?_dictSet_ne _ _ _ _ (fun h => hk h.symm)]
            exact ih

theorem map_fst_minuteGroups_nodup (rs : List Reading) :
    ((minuteGroups rs).map Prod.fst).Nodup := by
  induction rs using List.reverseRecOn with
  | nil => simp [minuteGroups]
  | append_singleton rs r ih =>
      rw [minuteGroups_append]
      unfold dictAppendVal
      cases hd : dictGet? (minuteGroups rs) (minuteKey r.recordedAt) with
      | none =>
          have hmem : minuteKey r.recordedAt ∉ (minuteGroups rs).map Prod.fst :=
            (dictGet?_eq_none_iff _ _).mp hd
          rw [List.map_append, List.nodup_append]
          refine ⟨ih, by simp, ?_⟩
          intro x hx hmemx
          simp only [List.map_cons, List.map_nil, List.mem_singleton] at hmemx
          subst hmemx
          exact hmem hx
      | some vs =>
          rw [map_fst_dictSet_of_isSome _ _ _ (by simp [hd])]
          exact ih

theorem average_by_minute_example :
    _average_by_minute
        [⟨20, 36005000000⟩, ⟨22, 36040000000⟩, ⟨30, 36070000000⟩] =
      [⟨21, 36000000000⟩, ⟨30, 36060000000⟩] := by
  have h1 : minuteGroups [⟨20, 36005000000⟩, ⟨22, 36040000000⟩, ⟨30, 36070000000⟩] =
      [(36000000000, [20, 22]), (36060000000, [30])] := by
    simp [minuteGroups, dictAppendVal, dictGet?, dictSet, minuteKey, usPerMin]
  rw [_average_by_minute, if_neg (by simp), h1]
  have h2 : List.insertionSort keyLE
      [(36000000000, [20, 22]), (36060000000, [(30 : ℚ)])] =
      [(36000000000, [20, 22]), (36060000000, [30])] := by
    simp [List.insertionSort, List.orderedInsert, keyLE]
  rw [h2]
  simp only [List.map_cons, List.map_nil]
  norm_num [pyRound2, roundHalfToEven]

theorem get_readings_example :
    get_readings
        (fun a b => [⟨20, 36005000000⟩, ⟨22, 36040000000⟩, ⟨30, 36070000000⟩])
        (.valid "2026-01-01T10:00:00Z" 36000000000)
        (.valid "2026-01-01T10:02:00Z" 36120000000) =
      .ok [⟨21, 36000000000⟩, ⟨30, 36060000000⟩] := by
  simp [get_readings, parseIso, average_by_minute_example]

/-- C3: `_average_by_minute` emits readings whose minutes are strictly
ascending; the minutes are exactly the distinct minute buckets of the
input (one synthetic reading per minute with at least one raw sample, no
gap-filling); each output value is the arithmetic mean, rounded to two
decimal places, of the input values of its minute; and on the concrete
three-sample input of the spec the aggregation (and `get_readings` over
it) returns exactly the two expected entries. -/
theorem c3_average_by_minute_correct (rs : List Reading) :
    ((_average_by_minute rs).map Reading.recordedAt).Pairwise (· < ·) ∧
    (∀ m : Nat, m ∈ (_average_by_minute rs).map Reading.recordedAt ↔
      ∃ r ∈ rs, minuteKey r.recordedAt = m) ∧
    (∀ o ∈ _average_by_minute rs,
      o.tempC = pyRound2
        (((rs.filter (fun r => minuteKey r.recordedAt = o.recordedAt)).map Reading.tempC).sum /
         (((rs.filter (fun r => minuteKey r.recordedAt = o.recordedAt)).map Reading.tempC).length : ℚ))) ∧
    _average_by_minute
        [⟨20, 36005000000⟩, ⟨22, 36040000000⟩, ⟨30, 36070000000⟩] =
      [⟨21, 36000000000⟩, ⟨30, 36060000000⟩] ∧
    get_readings
        (fun a b => [⟨20, 36005000000⟩, ⟨22, 36040000000⟩, ⟨30, 36070000000⟩])
        (.valid "2026-01-01T10:00:00Z" 36000000000)
        (.valid "2026-01-01T10:02:00Z" 36120000000) =
      .ok [⟨21, 36000000000⟩, ⟨30, 36060000000⟩] := by
  by_cases hrs : rs = []
  · subst hrs
    refine ⟨by simp [_average_by_minute], ?_, by simp [_average_by_minute],
      average_by_minute_example, get_readings_example⟩
    intro m
    simp [_average_by_minute]
  · have havg : _average_by_minute rs =
        (List.insertionSort keyLE (minuteGroups rs)).map (fun g =>
          ({ tempC := pyRound2 (g.2.sum / (g.2.length : ℚ)),
             recordedAt := g.1 } : Reading)) := by
      simp [_average_by_minute, hrs]
    set G := minuteGroups rs with hG
    set S := List.insertionSort keyLE G with hS
    have hperm : List.Perm S G := List.perm_insertionSort keyLE G
    have hsor : List.Sorted keyLE S := List.sorted_insertionSort keyLE G
    have hndG : (G.map Prod.fst).Nodup := map_fst_minuteGroups_nodup rs
    have hndS : (S.map Prod.fst).Nodup := (hperm.map Prod.fst).nodup_iff.mpr hndG
    have hmapfst : (_average_by_minute rs).map Reading.recordedAt = S.map Prod.fst := by
      rw [havg, List.map_map]
      rfl
    refine ⟨?_, ?_, ?_, average_by_minute_example, get_readings_example⟩
    · rw [hmapfst]
      have h1 : (S.map Prod.fst).Pairwise (· ≤ ·) :=
        List.pairwise_map.mpr (hsor.imp fun h => h)
      have h2 : (S.map Prod.fst).Pairwise (· ≠ ·) := hndS
      exact (h1.and h2).imp (fun h => lt_of_le_of_ne h.1 h.2)
    · intro m
      rw [hmapfst, (hperm.map Prod.fst).mem_iff]
      constructor
      · intro hm
        have hne : ¬ dictGet? G m = none :=
          fun h => (dictGet?_eq_none_iff G m).mp h hm
        rw [dictGet?_minuteGroups] at hne
        by_cases hf : rs.filter (fun r => minuteKey r.recordedAt = m) = []
        · rw [if_pos hf] at hne
          exact absurd rfl hne
        · rcases List.exists_mem_of_ne_nil _ hf with ⟨r, hr⟩
          have hrm := List.mem_filter.mp hr
          exact ⟨r, hrm.1, by simpa using hrm.2⟩
      · rintro ⟨r, hrmem, hrk⟩
        have hf : ¬ rs.filter (fun x => minuteKey x.recordedAt = m) = [] := by
          intro h
          have := List.filter_eq_nil_iff.mp h r hrmem
          simp [hrk] at this
        have hne : dictGet? G m ≠ none := by
          rw [dictGet?_minuteGroups, if_neg hf]
          simp
        by_contra hm
        exact hne ((dictGet?_eq_none_iff G m).mpr hm)
    · intro o ho
      rw [havg] at ho
      rcases List.mem_map.mp ho with ⟨g, hgS, hgo⟩
      have hgG : g ∈ G := hperm.mem_iff.mp hgS
      have hdg : dictGet? G g.1 = some g.2 :=
        (mem_iff_dictGet?_of_nodup G hndG g.1 g.2).mp (by simpa using hgG)
      rw [dictGet?_minuteGroups] at hdg
      by_cases hf : rs.filter (fun x => minuteKey x.recordedAt = g.1) = []
      · rw [if_pos hf] at hdg
        exact absurd hdg (by simp)
      · rw [if_neg hf] at hdg
        have hg2 : g.2 =
            (rs.filter (fun x => minuteKey x.recordedAt = g.1)).map Reading.tempC :=
          (Option.some.inj hdg).symm
        have hrec : o.recordedAt = g.1 := by rw [← hgo]
        have htmp : o.tempC = pyRound2 (g.2.sum / (g.2.length : ℚ)) := by rw [← hgo]
        simp only [htmp, hrec, hg2]

/-! ## Reading Store range query (`app.py`)

A persisted CSV row is modelled by its parse behavior: `recordedAt` is
`none` when `iso_to_dt` would raise (the row is then skipped inside the
`try`/`except`), and `valueC` is `none` when `float(row["valueC"])` would
raise — that call sits *outside* the `try`, so it aborts the whole query
(`PyExn.valueError`).  Timestamps are seconds since the epoch; a store is
the set of per-day CSV files, keyed by day index. -/

structure CsvRow where
  id : String
  room : String
  valueC : Option ℚ
  recordedAt : Option Nat
deriving DecidableEq

structure TemperatureReadingOut where
  id : String
  room : String
  valueC : ℚ
  recordedAt : Nat
deriving DecidableEq

abbrev CsvStore : Type := List (Nat × List CsvRow)

def secPerDay : Nat := 86400

/-- The calendar-day partition index of a timestamp. -/
def dayOf (t : Nat) : Nat := t / secPerDay

/-- Embeds `daterange_inclusive`: every day from `from.date()` to
`to.date()` inclusive (empty when the range is inverted). -/
def daterange_inclusive (fromT toT : Nat) : List Nat :=
  List.range' (dayOf fromT) (dayOf toT + 1 - dayOf fromT)

inductive PyExn where
  | valueError : PyExn
deriving DecidableEq

/-- Embeds `if rooms and row["room"] not in rooms: continue` — an empty
room list is falsy and disables the filter. -/
def rowRoomSkipped (rooms : Option (List String)) (room : String) : Bool :=
  match rooms with
  | some rl => !rl.isEmpty && !rl.contains room
  | none => false

/-- The inner row loop of `read_readings` over one day file: skip rows
with unparseable timestamps, skip out-of-range and filtered-room rows,
abort on an unparseable value, and return early (flag `true`) once
`limit` results are accumulated. -/
def readRows (fromT toT : Nat) (rooms : Option (List String)) (limit : Nat) :
    List CsvRow → List TemperatureReadingOut →
    Except PyExn (List TemperatureReadingOut × Bool)
  | [], results => .ok (results, false)
  | row :: rest, results =>
      match row.recordedAt with
      | none => readRows fromT toT rooms limit rest results
      | some t =>
          if t < fromT ∨ toT < t then readRows fromT toT rooms limit rest results
          else if rowRoomSkipped rooms row.room then
            readRows fromT toT rooms limit rest results
          else
            match row.valueC with
            | none => .error .valueError
            | some v =>
                let results₂ := results ++ [⟨row.id, row.room, v, t⟩]
                if limit ≤ results₂.length then .ok (results₂, true)
                else readRows fromT toT rooms limit rest results₂

/-- The outer day loop of `read_readings`: iterate the inclusive day
range, skipping days without a file, propagating errors and the
early-return flag. -/
def readDays (fromT toT : Nat) (rooms : Option (List String)) (limit : Nat)
    (store : CsvStore) :
    List Nat → List TemperatureReadingOut →
    Except PyExn (List TemperatureReadingOut)
  | [], results => .ok results
  | d :: ds, results =>
      match dictGet? store d with
      | none => readDays fromT toT rooms limit store ds results
      | some rows =>
          match readRows fromT toT rooms limit rows results with
          | .error e => .error e
          | .ok (results₂, done) =>
              if done then .ok results₂
              else readDays fromT toT rooms limit store ds results₂

/-- Embeds `read_readings` from `app.py`. -/
def read_readings (fromT toT : Nat) (rooms : Option (List String))
    (limit : Nat) (store : CsvStore) :
    Except PyExn (List TemperatureReadingOut) :=
  readDays fromT toT rooms limit store (daterange_inclusive fromT toT) []

/-- The output a single well-formed row contributes when it is in range
and passes the room filter. -/
def rowOut? (fromT toT : Nat) (rooms : Option (List String)) (r : CsvRow) :
    Option TemperatureReadingOut :=
  match r.recordedAt, r.valueC with
  | some t, some v =>
      if fromT ≤ t ∧ t ≤ toT ∧ rowRoomSkipped rooms r.room = false then
        some ⟨r.id, r.room, v, t⟩
      else none
  | _, _ => none

/-- The in-range well-formed readings of the scanned partitions, in
partition-day order and, within a day, in stored row order. -/
def expectedReadings (fromT toT : Nat) (rooms : Option (List String))
    (store : CsvStore) : List TemperatureReadingOut :=
  (daterange_inclusive fromT toT).flatMap
    (fun d => ((dictGet? store d).getD []).filterMap (rowOut? fromT toT rooms))

theorem dictGet?_mem {κ α : Type} [DecidableEq κ]
    (d : List (κ × α)) (k : κ) (v : α) (h : dictGet? d k = some v) :
    (k, v) ∈ d := by
  induction d with
  | nil => simp [dictGet?] at h
  | cons hd tl ih =>
      obtain ⟨k₀, v₀⟩ := hd
      by_cases hk : k = k₀
      · subst hk
        simp only [dictGet?, eq_self_iff_true, if_true, Option.some.injEq] at h
        subst h
        exact List.mem_cons_self _ _
      · simp only [dictGet?, if_neg hk] at h
        exact List.mem_cons_of_mem _ (ih h)

theorem readRows_ok (fromT toT : Nat) (rooms : Option (List String))
    (limit : Nat) : ∀ (rows : List CsvRow) (acc : List TemperatureReadingOut),
    (∀ r ∈ rows, ∀ t, r.recordedAt = some t → fromT ≤ t → t ≤ toT →
      rowRoomSkipped rooms r.room = false → r.valueC ≠ none) →
    acc.length + (rows.filterMap (rowOut? fromT toT rooms)).length < limit →
    readRows fromT toT rooms limit rows acc =
      .ok (acc ++ rows.filterMap (rowOut? fromT toT rooms), false) := by
  intro rows
  induction rows with
  | nil => intro acc _ _; simp [readRows]
  | cons row rest ih =>
      intro acc hval hlim
      have htail : ∀ r ∈ rest, ∀ t, r.recordedAt = some t → fromT ≤ t →
          t ≤ toT → rowRoomSkipped rooms r.room = false → r.valueC ≠ none :=
        fun r hr => hval r (List.mem_cons_of_mem _ hr)
      cases hrec : row.recordedAt with
      | none =>
          have hout : rowOut? fromT toT rooms row = none := by
            simp [rowOut?, hrec]
          rw [List.filterMap_cons, hout] at hlim ⊢
          simp only [readRows, hrec]
          exact ih acc htail hlim
      | some t =>
          by_cases hr : t < fromT ∨ toT < t
          · have hout : rowOut? fromT toT rooms row = none := by
              cases hv : row.valueC with
              | none => simp [rowOut?, hrec, hv]
              | some v =>
                  simp only [rowOut?, hrec, hv]
                  rw [if_neg]
                  intro hcon
                  omega
            rw [List.filterMap_cons, hout] at hlim ⊢
            simp only [readRows, hrec, if_pos hr]
            exact ih acc htail hlim
          · have hin1 : fromT ≤ t := by omega
            have hin2 : t ≤ toT := by omega
            by_cases hroom : rowRoomSkipped rooms row.room = true
            · have hout : rowOut? fromT toT rooms row = none := by
                cases hv : row.valueC with
                | none => simp [rowOut?, hrec, hv]
                | some v =>
                    simp only [rowOut?, hrec, hv]
                    rw [if_neg]
                    intro hcon
                    rw [hcon.2.2] at hroom
                    exact Bool.false_ne_true hroom
              rw [List.filterMap_cons, hout] at hlim ⊢
              simp only [readRows, hrec, if_neg hr, if_pos hroom]
              exact ih acc htail hlim
            · have hroom' : rowRoomSkipped rooms row.room = false := by
                cases hb : rowRoomSkipped rooms row.room
                · rfl
                · exact absurd hb hroom
              cases hv : row.valueC with
              | none =>
                  exact absurd hv
                    (hval row (List.mem_cons_self _ _) t hrec hin1 hin2 hroom')
              | some v =>
                  have hout : rowOut? fromT toT rooms row =
                      some ⟨row.id, row.room, v, t⟩ := by
                    simp [rowOut?, hrec, hv, hin1, hin2, hroom']
                  rw [List.filterMap_cons, hout] at hlim ⊢
                  simp only [List.length_cons] at hlim
                  have hstep : readRows fromT toT rooms limit (row :: rest) acc =
                      readRows fromT toT rooms limit rest
                        (acc ++ [⟨row.id, row.room, v, t⟩]) := by
                    simp only [readRows, hrec, hv, if_neg hr, if_neg hroom]
                    rw [if_neg]
                    simp only [List.length_append, List.length_cons, List.length_nil]
                    omega
                  rw [hstep]
                  have happ := ih
                    (acc ++ [(⟨row.id, row.room, v, t⟩ : TemperatureReadingOut)])
                    htail
                    (by simp only [List.length_append, List.length_cons,
                      List.length_nil]; omega)
                  rw [happ]
                  simp [List.append_assoc]

theorem readDays_ok (fromT toT : Nat) (rooms : Option (List String))
    (limit : Nat) (store : CsvStore) :
    ∀ (days : List Nat) (acc : List TemperatureReadingOut),
    (∀ d ∈ days, ∀ r ∈ (dictGet? store d).getD [], ∀ t,
      r.recordedAt = some t → fromT ≤ t → t ≤ toT →
      rowRoomSkipped rooms r.room = false → r.valueC ≠ none) →
    acc.length + (days.flatMap
      (fun d => ((dictGet? store d).getD []).filterMap
        (rowOut? fromT toT rooms))).length < limit →
    readDays fromT toT rooms limit store days acc =
      .ok (acc ++ days.flatMap
        (fun d => ((dictGet? store d).getD []).filterMap
          (rowOut? fromT toT rooms))) := by
  intro days
  induction days with
  | nil => intro acc _ _; simp [readDays]
  | cons d ds ih =>
      intro acc hval hlim
      have htail : ∀ x ∈ ds, ∀ r ∈ (dictGet? store x).getD [], ∀ t,
          r.recordedAt = some t → fromT ≤ t → t ≤ toT →
          rowRoomSkipped rooms r.room = false → r.valueC ≠ none :=
        fun x hx => hval x (List.mem_cons_of_mem _ hx)
      rw [List.flatMap_cons] at hlim ⊢
      cases hd : dictGet? store d with
      | none =>
          simp only [readDays, hd]
          rw [hd] at hlim
          simp only [Option.getD_none, List.filterMap_nil, List.nil_append] at hlim ⊢
          exact ih acc htail hlim
      | some rows =>
          rw [hd] at hlim
          simp only [Option.getD_some] at hlim
          simp only [List.length_append] at hlim
          have hrows : readRows fromT toT rooms limit rows acc =
              .ok (acc ++ rows.filterMap (rowOut? fromT toT rooms), false) :=
            readRows_ok fromT toT rooms limit rows acc
              (fun r hr => hval d (List.mem_cons_self _ _) r
                (by simp [hd, hr]))
              (by omega)
          simp only [readDays, hd, hrows]
          rw [if_neg (by simp)]
          have happ := ih (acc ++ rows.filterMap (rowOut? fromT toT rooms))
            htail
            (by simp only [List.length_append]; omega)
          rw [happ, Option.getD_some, List.append_assoc]

/-- A day file whose middle row has an unparseable `valueC`. -/
def c4Store : CsvStore :=
  [(0, [⟨"a", "r1", some 20, some 10⟩, ⟨"b", "r1", none, some 30⟩,
        ⟨"c", "r1", some 25, some 50⟩])]

/-- C4, counterexample: a corrupt persisted row is not always skipped:
when `recordedAt` parses and is in range but `valueC` is malformed,
`float(row["valueC"])` sits outside the `try`/`except` and the whole
query fails instead of returning the two well-formed readings. -/
theorem c4_corrupt_value_fails_whole_query :
    read_readings 0 100 none 1000 c4Store = .error .valueError := rfl

/-- C4: rows whose `recordedAt` is malformed are skipped silently and the
remaining well-formed in-range readings are still returned — provided
every scanned row whose timestamp parses into the range has a parseable
`valueC` (otherwise the query fails, see the counterexample). -/
theorem c4_malformed_timestamp_rows_skipped (fromT toT limit : Nat)
    (store : CsvStore)
    (hval : ∀ d ∈ daterange_inclusive fromT toT,
      ∀ r ∈ (dictGet? store d).getD [], ∀ t,
      r.recordedAt = some t → fromT ≤ t → t ≤ toT → r.valueC ≠ none)
    (hlim : (expectedReadings fromT toT none store).length < limit) :
    read_readings fromT toT none limit store =
      .ok (expectedReadings fromT toT none store) := by
  unfold read_readings expectedReadings
  refine readDays_ok fromT toT none limit store _ []
    (fun d hd r hr t h1 h2 h3 _ => hval d hd r hr t h1 h2 h3) ?_
  simpa [expectedReadings] using hlim

/-- A store with one good row, one row with unparseable timestamp, and
another good row. -/
def c4WitnessStore : CsvStore :=
  [(0, [⟨"a", "r1", some 20, some 10⟩, ⟨"b", "r1", some 99, none⟩,
        ⟨"c", "r1", some 25, some 50⟩])]

/-- C4 witness: the skip theorem applied to a file containing a row with
an unparseable timestamp between two good rows. -/
theorem c4_malformed_timestamp_rows_skipped_witness :
    read_readings 0 100 none 1000 c4WitnessStore =
      .ok (expectedReadings 0 100 none c4WitnessStore) :=
  c4_malformed_timestamp_rows_skipped 0 100 1000 c4WitnessStore
    (by decide) (by decide)

/-- A day file whose rows are stored out of time order. -/
def c5Store : CsvStore :=
  [(0, [⟨"a", "r1", some 20, some 50⟩, ⟨"b", "r1", some 21, some 10⟩])]

/-- C5, counterexample: the query returns rows in stored order, not in
ascending time order — a day file holding timestamps 50 then 10 yields
results timestamped [50, 10]. -/
theorem c5_results_not_time_ordered :
    read_readings 0 100 none 1000 c5Store =
      .ok [⟨"a", "r1", 20, 50⟩, ⟨"b", "r1", 21, 10⟩] ∧
    ¬ (([⟨"a", "r1", (20 : ℚ), 50⟩, ⟨"b", "r1", 21, 10⟩] :
        List TemperatureReadingOut).map
        TemperatureReadingOut.recordedAt).Pairwise (· ≤ ·) := by
  refine ⟨rfl, ?_⟩
  intro h
  simp only [List.map_cons, List.map_nil] at h
  have := List.rel_of_pairwise_cons h (List.mem_cons_self _ _)
  omega

/-- C5: on a store of well-formed, correctly partitioned day files (with
pairwise-distinct day keys, no room filter, and a limit above the match
count), the query returns exactly the readings with
`fromTime ≤ recordedAt ≤ toTime`, inclusive on both ends — the result
list being in day order and, within a day, in stored row order (which is
ascending time order only when each file is stored sorted; see the
counterexample).  The last conjunct exhibits both boundary timestamps
being included. -/
theorem c5_query_range_inclusive (fromT toT limit : Nat) (store : CsvStore)
    (hwf : ∀ d rows, (d, rows) ∈ store → ∀ r ∈ rows,
      r.recordedAt.map dayOf = some d ∧ r.valueC ≠ none)
    (hnd : (store.map Prod.fst).Nodup)
    (hlim : (expectedReadings fromT toT none store).length < limit) :
    read_readings fromT toT none limit store =
      .ok (expectedReadings fromT toT none store) ∧
    (∀ o : TemperatureReadingOut,
      o ∈ expectedReadings fromT toT none store ↔
      ∃ d rows r, (d, rows) ∈ store ∧ r ∈ rows ∧
        r.id = o.id ∧ r.room = o.room ∧ r.valueC = some o.valueC ∧
        r.recordedAt = some o.recordedAt ∧
        fromT ≤ o.recordedAt ∧ o.recordedAt ≤ toT) ∧
    read_readings 10 20 none 1000
        [(0, [⟨"x", "r", some 1, some 10⟩, ⟨"y", "r", some 2, some 20⟩])] =
      .ok [⟨"x", "r", 1, 10⟩, ⟨"y", "r", 2, 20⟩] := by
  refine ⟨?_, ?_, rfl⟩
  · unfold read_readings expectedReadings
    refine readDays_ok fromT toT none limit store _ [] ?_
      (by simpa [expectedReadings] using hlim)
    intro d hd r hr t h1 h2 h3 h4
    cases hg : dictGet? store d with
    | none => rw [hg] at hr; simp at hr
    | some rows =>
        rw [hg] at hr
        simp only [Option.getD_some] at hr
        exact (hwf d rows (dictGet?_mem store d rows hg) r hr).2
  · intro o
    constructor
    · intro ho
      unfold expectedReadings at ho
      rcases List.mem_flatMap.mp ho with ⟨d, hdmem, hod⟩
      rcases List.mem_filterMap.mp hod with ⟨r, hrmem, hro⟩
      cases hg : dictGet? store d with
      | none => rw [hg] at hrmem; simp at hrmem
      | some rows =>
          rw [hg] at hrmem
          simp only [Option.getD_some] at hrmem
          cases hrec : r.recordedAt with
          | none => simp [rowOut?, hrec] at hro
          | some t =>
              cases hv : r.valueC with
              | none => simp [rowOut?, hrec, hv] at hro
              | some v =>
                  simp only [rowOut?, hrec, hv] at hro
                  by_cases hcond : fromT ≤ t ∧ t ≤ toT ∧
                      rowRoomSkipped none r.room = false
                  · rw [if_pos hcond] at hro
                    have ho2 := Option.some.inj hro
                    subst ho2
                    exact ⟨d, rows, r, dictGet?_mem store d rows hg, hrmem,
                      rfl, rfl, hv, hrec, hcond.1, hcond.2.1⟩
                  · rw [if_neg hcond] at hro
                    exact absurd hro (by simp)
    · rintro ⟨d, rows, r, hdr, hrmem, hid, hroomf, hvC, hrA, hge, hle⟩
      unfold expectedReadings
      rw [List.mem_flatMap]
      have hday : dayOf o.recordedAt = d := by
        have hmap := (hwf d rows hdr r hrmem).1
        rw [hrA] at hmap
        simpa using hmap
      refine ⟨d, ?_, ?_⟩
      · unfold daterange_inclusive
        rw [List.mem_range'_1]
        have h1 : dayOf fromT ≤ dayOf o.recordedAt := Nat.div_le_div_right hge
        have h2 : dayOf o.recordedAt ≤ dayOf toT := Nat.div_le_div_right hle
        rw [← hday]
        exact ⟨h1, by omega⟩
      · rw [(mem_iff_dictGet?_of_nodup store hnd d rows).mp hdr]
        simp only [Option.getD_some]
        rw [List.mem_filterMap]
        refine ⟨r, hrmem, ?_⟩
        simp only [rowOut?, hrA, hvC]
        rw [if_pos ⟨hge, hle, rfl⟩]
        rw [hid, hroomf]

/-- C5 witness: the inclusivity theorem applied to a single day file with
readings exactly at both bounds of the query range [10, 20]. -/
theorem c5_query_range_inclusive_witness :
    read_readings 10 20 none 1000
        [(0, [⟨"x", "r", some 1, some 10⟩, ⟨"y", "r", some 2, some 20⟩])] =
      .ok (expectedReadings 10 20 none
        [(0, [⟨"x", "r", some 1, some 10⟩, ⟨"y", "r", some 2, some 20⟩])]) ∧
    (∀ o : TemperatureReadingOut,
      o ∈ expectedReadings 10 20 none
          [(0, [⟨"x", "r", some 1, some 10⟩, ⟨"y", "r", some 2, some 20⟩])] ↔
      ∃ d rows r, (d, rows) ∈
          [((0 : Nat), [(⟨"x", "r", some 1, some 10⟩ : CsvRow),
            ⟨"y", "r", some 2, some 20⟩])] ∧ r ∈ rows ∧
        r.id = o.id ∧ r.room = o.room ∧ r.valueC = some o.valueC ∧
        r.recordedAt = some o.recordedAt ∧
        10 ≤ o.recordedAt ∧ o.recordedAt ≤ 20) ∧
    read_readings 10 20 none 1000
        [(0, [⟨"x", "r", some 1, some 10⟩, ⟨"y", "r", some 2, some 20⟩])] =
      .ok [⟨"x", "r", 1, 10⟩, ⟨"y", "r", 2, 20⟩] :=
  c5_query_range_inclusive 10 20 1000
    [(0, [⟨"x", "r", some 1, some 10⟩, ⟨"y", "r", some 2, some 20⟩])]
    (by
      intro d rows hmem r hr
      simp only [List.mem_singleton, Prod.mk.injEq] at hmem
      obtain ⟨hd, hrows⟩ := hmem
      subst hd
      subst hrows
      simp only [List.mem_cons, List.mem_singleton, List.not_mem_nil,
        or_false] at hr
      rcases hr with rfl | rfl
      · exact ⟨rfl, by decide⟩
      · exact ⟨rfl, by decide⟩)
    (by decide) (by decide)
